import Mathlib

/-!
Verification of the moderation pipeline of `bot.py` (a Discord moderation
bot) against its specification.

The Python code compiles two obfuscation-tolerant regular expressions with
`re.IGNORECASE` and answers "does this text violate policy?" via an
unanchored `pattern.search`.  We embed the relevant fragment of Python's
`re` as a small regular-expression language over `Char` with character
classes, give it the standard declarative semantics (`Lang`), an executable
Brzozowski-derivative matcher (`rmatch`), and an unanchored search
(`search`), and prove the matcher and the search correct against `Lang`.

Character-level caveat: Python 3's `\w` covers the full Unicode range; the
embedding models the ASCII fragment (`Char.isAlphanum` plus underscore),
and `re.IGNORECASE` is modelled by ASCII case folding (`Char.toLower`),
which is exact on the ASCII texts the patterns are built from.
-/

namespace Bot

/-- Regular expressions over `Char`, with character classes given by a
boolean predicate (Python character classes such as `[\W_]` are infinite
sets of codepoints, so a predicate rather than a character list). -/
inductive Regex : Type where
  | zero : Regex
  | eps : Regex
  | cls : (Char → Bool) → Regex
  | alt : Regex → Regex → Regex
  | cat : Regex → Regex → Regex
  | star : Regex → Regex

/-- The declarative language of a regular expression: the standard
mathematical semantics of Python `re` matching (for the fragment used by
the bot).  In the `star` case the chunks are required nonempty, which
defines the same language and is the standard well-founded formulation. -/
def Lang : Regex → List Char → Prop
  | .zero, _ => False
  | .eps, s => s = []
  | .cls p, s => ∃ c, s = [c] ∧ p c = true
  | .alt r₁ r₂, s => Lang r₁ s ∨ Lang r₂ s
  | .cat r₁ r₂, s => ∃ t u, s = t ++ u ∧ Lang r₁ t ∧ Lang r₂ u
  | .star r, s => ∃ S : List (List Char), s = S.flatten ∧ ∀ t ∈ S, t ≠ [] ∧ Lang r t

/-- Does the expression accept the empty string? -/
def nullable : Regex → Bool
  | .zero => false
  | .eps => true
  | .cls _ => false
  | .alt r₁ r₂ => nullable r₁ || nullable r₂
  | .cat r₁ r₂ => nullable r₁ && nullable r₂
  | .star _ => true

/-- Brzozowski derivative with respect to one character. -/
def deriv : Regex → Char → Regex
  | .zero, _ => .zero
  | .eps, _ => .zero
  | .cls p, a => if p a then .eps else .zero
  | .alt r₁ r₂, a => .alt (deriv r₁ a) (deriv r₂ a)
  | .cat r₁ r₂, a =>
      if nullable r₁ then .alt (.cat (deriv r₁ a) r₂) (deriv r₂ a)
      else .cat (deriv r₁ a) r₂
  | .star r, a => .cat (deriv r a) (.star r)

/-- Executable anchored matcher: does `r` match exactly the word `x`? -/
def rmatch : Regex → List Char → Bool
  | r, [] => nullable r
  | r, a :: as => rmatch (deriv r a) as

theorem zero_rmatch (x : List Char) : rmatch .zero x = false := by
  induction x <;> simp [rmatch, deriv, nullable, *]

theorem eps_rmatch_iff (x : List Char) : rmatch .eps x = true ↔ x = [] := by
  cases x with
  | nil => simp [rmatch, nullable]
  | cons a as => simp [rmatch, deriv, zero_rmatch]

theorem cls_rmatch_iff (p : Char → Bool) (x : List Char) :
    rmatch (.cls p) x = true ↔ ∃ c, x = [c] ∧ p c = true := by
  cases x with
  | nil => simp [rmatch, nullable]
  | cons a as =>
    cases as with
    | nil =>
      rw [rmatch, deriv]
      by_cases h : p a = true
      · simp [h, eps_rmatch_iff]
      · simp [h, zero_rmatch]
    | cons b bs =>
      rw [rmatch, deriv]
      by_cases h : p a = true
      · simp [h, eps_rmatch_iff]
      · simp [h, zero_rmatch]

theorem alt_rmatch_iff (r₁ r₂ : Regex) (x : List Char) :
    rmatch (.alt r₁ r₂) x = true ↔ rmatch r₁ x = true ∨ rmatch r₂ x = true := by
  induction x generalizing r₁ r₂ with
  | nil => simp [rmatch, nullable]
  | cons a as ih =>
    rw [rmatch, deriv]
    rw [rmatch, rmatch]
    exact ih _ _

theorem cat_rmatch_iff (r₁ r₂ : Regex) (x : List Char) :
    rmatch (.cat r₁ r₂) x = true ↔
      ∃ t u, x = t ++ u ∧ rmatch r₁ t = true ∧ rmatch r₂ u = true := by
  induction x generalizing r₁ r₂ with
  | nil =>
    rw [rmatch]
    simp only [nullable, Bool.and_eq_true]
    constructor
    · intro h
      exact ⟨[], [], rfl, by rw [rmatch]; exact h.1, by rw [rmatch]; exact h.2⟩
    · rintro ⟨t, u, h₁, h₂, h₃⟩
      rcases List.append_eq_nil.1 h₁.symm with ⟨ht, hu⟩
      subst ht; subst hu
      rw [rmatch] at h₂ h₃
      exact ⟨h₂, h₃⟩
  | cons a as ih =>
    rw [rmatch]
    simp only [deriv]
    by_cases hnull : nullable r₁ = true
    · rw [if_pos hnull, alt_rmatch_iff, ih]
      constructor
      · rintro (⟨t, u, h₁, h₂, h₃⟩ | h)
        · exact ⟨a :: t, u, by rw [h₁]; rfl, by rw [rmatch]; exact h₂, h₃⟩
        · exact ⟨[], a :: as, rfl, by rw [rmatch]; exact hnull, h⟩
      · rintro ⟨t, u, h₁, h₂, h₃⟩
        cases t with
        | nil =>
          right
          rw [List.nil_append] at h₁
          rw [← h₁] at h₃
          exact h₃
        | cons b t =>
          left
          rw [List.cons_append, List.cons_eq_cons] at h₁
          refine ⟨t, u, h₁.2, ?_, h₃⟩
          rw [rmatch] at h₂
          rw [← h₁.1] at h₂
          exact h₂
    · rw [if_neg hnull, ih]
      constructor
      · rintro ⟨t, u, h₁, h₂, h₃⟩
        exact ⟨a :: t, u, by rw [h₁]; rfl, by rw [rmatch]; exact h₂, h₃⟩
      · rintro ⟨t, u, h₁, h₂, h₃⟩
        cases t with
        | nil =>
          rw [rmatch] at h₂
          exact absurd h₂ hnull
        | cons b t =>
          rw [List.cons_append, List.cons_eq_cons] at h₁
          refine ⟨t, u, h₁.2, ?_, h₃⟩
          rw [rmatch] at h₂
          rw [← h₁.1] at h₂
          exact h₂

theorem star_rmatch_iff (r : Regex) :
    ∀ x : List Char, rmatch (.star r) x = true ↔
      ∃ S : List (List Char), x = S.flatten ∧ ∀ t ∈ S, t ≠ [] ∧ rmatch r t = true :=
  fun x => by
    have IH := fun t (_h : List.length t < List.length x) => star_rmatch_iff r t
    clear star_rmatch_iff
    constructor
    · cases x with
      | nil =>
        intro _h
        exact ⟨[], by simp⟩
      | cons a as =>
        rw [rmatch, deriv, cat_rmatch_iff]
        rintro ⟨t, u, hs, ht, hu⟩
        have hwf : u.length < (a :: as).length := by
          rw [hs, List.length_cons, List.length_append]
          omega
        rw [IH _ hwf] at hu
        rcases hu with ⟨S', hsum, helem⟩
        refine ⟨(a :: t) :: S', ?_, ?_⟩
        · simp [hs, hsum]
        · intro t' ht'
          rcases List.mem_cons.1 ht' with h | h
          · subst h
            refine ⟨by simp, ?_⟩
            rw [rmatch]
            exact ht
          · exact helem t' h
    · rintro ⟨S, hsum, helem⟩
      cases x with
      | nil => rfl
      | cons a as =>
        rw [rmatch, deriv, cat_rmatch_iff]
        cases S with
        | nil => simp at hsum
        | cons t' U =>
          cases t' with
          | nil =>
            exact absurd rfl (helem [] (List.mem_cons_self _ _)).1
          | cons b t =>
            simp only [List.flatten, List.cons_append, List.cons_eq_cons] at hsum
            refine ⟨t, U.flatten, hsum.2, ?_, ?_⟩
            · have h := (helem (b :: t) (List.mem_cons_self _ _)).2
              rw [rmatch] at h
              rw [← hsum.1] at h
              exact h
            · have hwf : U.flatten.length < (a :: as).length := by
                rw [hsum.2, List.length_cons]
                simp only [List.length_append]
                omega
              rw [IH _ hwf]
              exact ⟨U, rfl, fun t h => helem t (List.mem_cons_of_mem _ h)⟩
  termination_by x => x.length

/-- The executable matcher decides the declarative semantics. -/
theorem rmatch_iff_lang (r : Regex) (x : List Char) :
    rmatch r x = true ↔ Lang r x := by
  induction r generalizing x with
  | zero => simp [zero_rmatch, Lang]
  | eps => rw [eps_rmatch_iff]; rfl
  | cls p => rw [cls_rmatch_iff]; rfl
  | alt r₁ r₂ ih₁ ih₂ => rw [alt_rmatch_iff, ih₁, ih₂]; rfl
  | cat r₁ r₂ ih₁ ih₂ =>
    rw [cat_rmatch_iff]
    simp only [Lang, ih₁, ih₂]
  | star r ih =>
    rw [star_rmatch_iff]
    simp only [Lang, ih]

/-- Does the expression match some prefix of the word?  (Used to implement
Python's unanchored `pattern.search` position by position.) -/
def matchHere : Regex → List Char → Bool
  | r, [] => nullable r
  | r, a :: as => nullable r || matchHere (deriv r a) as

/-- Python's `pattern.search(text)`: does the expression match some
substring of the text, starting at any position? -/
def search : Regex → List Char → Bool
  | r, [] => matchHere r []
  | r, a :: as => matchHere r (a :: as) || search r as

theorem matchHere_iff (r : Regex) (x : List Char) :
    matchHere r x = true ↔ ∃ t u, x = t ++ u ∧ rmatch r t = true := by
  induction x generalizing r with
  | nil =>
    rw [matchHere]
    constructor
    · intro h
      exact ⟨[], [], rfl, by rw [rmatch]; exact h⟩
    · rintro ⟨t, u, h₁, h₂⟩
      rcases List.append_eq_nil.1 h₁.symm with ⟨ht, _⟩
      subst ht
      rw [rmatch] at h₂
      exact h₂
  | cons a as ih =>
    rw [matchHere, Bool.or_eq_true, ih]
    constructor
    · rintro (h | ⟨t, u, h₁, h₂⟩)
      · exact ⟨[], a :: as, rfl, by rw [rmatch]; exact h⟩
      · refine ⟨a :: t, u, by rw [h₁]; rfl, ?_⟩
        rw [rmatch]
        exact h₂
    · rintro ⟨t, u, h₁, h₂⟩
      cases t with
      | nil =>
        left
        rw [rmatch] at h₂
        exact h₂
      | cons b t =>
        right
        rw [List.cons_append, List.cons_eq_cons] at h₁
        refine ⟨t, u, h₁.2, ?_⟩
        rw [rmatch] at h₂
        rw [← h₁.1] at h₂
        exact h₂

/-- Correctness of the unanchored search: `search r text` holds exactly
when some decomposition `text = pre ++ mid ++ post` has `mid` in the
language of `r`. -/
theorem search_iff (r : Regex) (x : List Char) :
    search r x = true ↔ ∃ pre mid post, x = pre ++ mid ++ post ∧ Lang r mid := by
  induction x with
  | nil =>
    rw [search, matchHere_iff]
    constructor
    · rintro ⟨t, u, h₁, h₂⟩
      rcases List.append_eq_nil.1 h₁.symm with ⟨ht, hu⟩
      subst ht; subst hu
      exact ⟨[], [], [], rfl, (rmatch_iff_lang _ _).1 h₂⟩
    · rintro ⟨pre, mid, post, h₁, h₂⟩
      rcases List.append_eq_nil.1 h₁.symm with ⟨hpm, hpost⟩
      rcases List.append_eq_nil.1 hpm with ⟨hpre, hmid⟩
      subst hmid
      exact ⟨[], [], rfl, (rmatch_iff_lang _ _).2 h₂⟩
  | cons a as ih =>
    rw [search, Bool.or_eq_true, matchHere_iff, ih]
    constructor
    · rintro (⟨t, u, h₁, h₂⟩ | ⟨pre, mid, post, h₁, h₂⟩)
      · exact ⟨[], t, u, by rw [h₁]; rfl, (rmatch_iff_lang _ _).1 h₂⟩
      · exact ⟨a :: pre, mid, post, by rw [h₁]; rfl, h₂⟩
    · rintro ⟨pre, mid, post, h₁, h₂⟩
      cases pre with
      | nil =>
        left
        rw [List.nil_append] at h₁
        exact ⟨mid, post, h₁, (rmatch_iff_lang _ _).2 h₂⟩
      | cons b pre =>
        right
        rw [List.cons_append, List.cons_append, List.cons_eq_cons] at h₁
        exact ⟨pre, mid, post, h₁.2, h₂⟩

/-! ### The bot's compiled patterns (`ModeratedBot.setup_automod_patterns`)

The two raw patterns in `bot.py` are

  `n[\W_]*[i1l!|][\W_]*[gq9][\W_]*[gq9][\W_]*[e3a@r4][\W_]*[r4]?`
  `r[\W_]*[e3][\W_]*[t7][\W_]*[a@][\W_]*[r4][\W_]*[d]+(?:[\W_]*[e3][\W_]*[d])?`

compiled with `re.IGNORECASE`.  `re.IGNORECASE` is modelled by folding the
candidate character with `Char.toLower` before class membership, which is
exact for the ASCII letters these classes contain. -/

/-- Python `\w` (word character), ASCII fragment: letters, digits, `_`. -/
def isWordChar (c : Char) : Bool := c.isAlphanum || c == '_'

/-- The character class `[\W_]`: a non-word character or an underscore. -/
def sepChar (c : Char) : Bool := !(isWordChar c) || c == '_'

/-- Case-insensitive character-class membership, as compiled under
`re.IGNORECASE`. -/
def ciMem (s : List Char) (c : Char) : Bool := s.contains c.toLower

/-- A case-insensitive character class (also used for a single literal
letter, which `re.IGNORECASE` makes a two-element class). -/
def ciCls (s : List Char) : Regex := .cls (ciMem s)

/-- `[\W_]*` : any run (possibly empty) of separator characters. -/
def sepStar : Regex := .star (.cls sepChar)

/-- `r?` : zero or one occurrence. -/
def ropt (r : Regex) : Regex := .alt r .eps

/-- `r+` : one or more occurrences. -/
def rplus (r : Regex) : Regex := .cat r (.star r)

/-- Concatenation of a sequence of regex atoms, as juxtaposition in the
pattern source. -/
def seq : List Regex → Regex
  | [] => .eps
  | r :: rs => .cat r (seq rs)

/-- First raw pattern (the "N slur" detector):
`n[\W_]*[i1l!|][\W_]*[gq9][\W_]*[gq9][\W_]*[e3a@r4][\W_]*[r4]?`. -/
def pattern_n_slur : Regex :=
  seq [ciCls ['n'], sepStar,
       ciCls ['i', '1', 'l', '!', '|'], sepStar,
       ciCls ['g', 'q', '9'], sepStar,
       ciCls ['g', 'q', '9'], sepStar,
       ciCls ['e', '3', 'a', '@', 'r', '4'], sepStar,
       ropt (ciCls ['r', '4'])]

/-- Second raw pattern (the "R slur" detector):
`r[\W_]*[e3][\W_]*[t7][\W_]*[a@][\W_]*[r4][\W_]*[d]+(?:[\W_]*[e3][\W_]*[d])?`. -/
def pattern_r_slur : Regex :=
  seq [ciCls ['r'], sepStar,
       ciCls ['e', '3'], sepStar,
       ciCls ['t', '7'], sepStar,
       ciCls ['a', '@'], sepStar,
       ciCls ['r', '4'], sepStar,
       rplus (ciCls ['d']),
       ropt (seq [sepStar, ciCls ['e', '3'], sepStar, ciCls ['d']])]

/-- `self.regex_patterns` as built by `setup_automod_patterns`. -/
def regex_patterns : List Regex := [pattern_n_slur, pattern_r_slur]

/-- `ModeratedBot.has_forbidden_content`:
`any(pattern.search(text) for pattern in self.regex_patterns)`. -/
def has_forbidden_content (text : List Char) : Bool :=
  regex_patterns.any (fun p => search p text)

/-- "Pattern `r` matches anywhere in `text`" — unanchored substring
matching, the specification-level meaning of `pattern.search`. -/
def MatchesSomewhere (r : Regex) (text : List Char) : Prop :=
  ∃ pre mid post, text = pre ++ mid ++ post ∧ Lang r mid

theorem lang_star_nil (r : Regex) : Lang (.star r) [] :=
  ⟨[], rfl, by simp⟩

theorem lang_cat_cls {p : Char → Bool} {r₂ : Regex} {c : Char} {s : List Char}
    (hc : p c = true) (h : Lang r₂ s) : Lang (.cat (.cls p) r₂) (c :: s) :=
  ⟨[c], s, rfl, ⟨c, rfl, hc⟩, h⟩

theorem lang_cat_sepStar {r₂ : Regex} {s : List Char} (h : Lang r₂ s) :
    Lang (.cat sepStar r₂) s :=
  ⟨[], s, rfl, lang_star_nil _, h⟩

theorem ciMem_of_toLower {s : List Char} {c d : Char} (h : c.toLower = d)
    (hd : s.contains d = true) : ciMem s c = true := by
  show s.contains c.toLower = true
  rw [h]
  exact hd

/-- The literal keyword the first pattern is built around, in any casing,
is in the pattern's language (all the `[\W_]*` paddings matching empty,
the optional trailing class matching). -/
theorem lang_keyword_n (k : List Char)
    (h : k.map Char.toLower = ['n', 'i', 'g', 'g', 'e', 'r']) :
    Lang pattern_n_slur k := by
  match k with
  | [] => simp at h
  | [c₁] => simp at h
  | [c₁, c₂] => simp at h
  | [c₁, c₂, c₃] => simp at h
  | [c₁, c₂, c₃, c₄] => simp at h
  | [c₁, c₂, c₃, c₄, c₅] => simp at h
  | c₁ :: c₂ :: c₃ :: c₄ :: c₅ :: c₆ :: c₇ :: rest => simp at h
  | [c₁, c₂, c₃, c₄, c₅, c₆] =>
    simp only [List.map_cons, List.map_nil, List.cons.injEq, and_true] at h
    obtain ⟨h₁, h₂, h₃, h₄, h₅, h₆⟩ := h
    show Lang (.cat (ciCls ['n']) _) _
    exact lang_cat_cls (ciMem_of_toLower h₁ (by decide)) <|
      lang_cat_sepStar <|
      lang_cat_cls (ciMem_of_toLower h₂ (by decide)) <|
      lang_cat_sepStar <|
      lang_cat_cls (ciMem_of_toLower h₃ (by decide)) <|
      lang_cat_sepStar <|
      lang_cat_cls (ciMem_of_toLower h₄ (by decide)) <|
      lang_cat_sepStar <|
      lang_cat_cls (ciMem_of_toLower h₅ (by decide)) <|
      lang_cat_sepStar <|
      ⟨[c₆], [], rfl, Or.inl ⟨c₆, rfl, ciMem_of_toLower h₆ (by decide)⟩, rfl⟩

/-- The literal keyword the second pattern is built around, in any casing,
is in the pattern's language. -/
theorem lang_keyword_r (k : List Char)
    (h : k.map Char.toLower = ['r', 'e', 't', 'a', 'r', 'd']) :
    Lang pattern_r_slur k := by
  match k with
  | [] => simp at h
  | [c₁] => simp at h
  | [c₁, c₂] => simp at h
  | [c₁, c₂, c₃] => simp at h
  | [c₁, c₂, c₃, c₄] => simp at h
  | [c₁, c₂, c₃, c₄, c₅] => simp at h
  | c₁ :: c₂ :: c₃ :: c₄ :: c₅ :: c₆ :: c₇ :: rest => simp at h
  | [c₁, c₂, c₃, c₄, c₅, c₆] =>
    simp only [List.map_cons, List.map_nil, List.cons.injEq, and_true] at h
    obtain ⟨h₁, h₂, h₃, h₄, h₅, h₆⟩ := h
    show Lang (.cat (ciCls ['r']) _) _
    refine lang_cat_cls (ciMem_of_toLower h₁ (by decide)) <|
      lang_cat_sepStar <|
      lang_cat_cls (ciMem_of_toLower h₂ (by decide)) <|
      lang_cat_sepStar <|
      lang_cat_cls (ciMem_of_toLower h₃ (by decide)) <|
      lang_cat_sepStar <|
      lang_cat_cls (ciMem_of_toLower h₄ (by decide)) <|
      lang_cat_sepStar <|
      lang_cat_cls (ciMem_of_toLower h₅ (by decide)) <|
      lang_cat_sepStar <|
      ⟨[c₆], [], rfl, ?_, ?_⟩
    · exact ⟨[c₆], [], rfl, ⟨c₆, rfl, ciMem_of_toLower h₆ (by decide)⟩, lang_star_nil _⟩
    · exact ⟨[], [], rfl, Or.inr rfl, rfl⟩

/-- C1: `has_forbidden_content` returns true iff at least one configured
pattern matches anywhere in the text as an unanchored, case-insensitive
substring search; every text containing a configured literal keyword
(`nigger` / `retard`) in any casing is flagged, and every text in which no
configured pattern matches anywhere is not flagged.  (Purity and absence
of error conditions hold by construction: the matcher is a total function
of the text.) -/
theorem has_forbidden_content_spec :
    (∀ text : List Char, has_forbidden_content text = true ↔
        ∃ r ∈ regex_patterns, MatchesSomewhere r text) ∧
    (∀ pre k post : List Char,
        (k.map Char.toLower = ['n', 'i', 'g', 'g', 'e', 'r'] ∨
         k.map Char.toLower = ['r', 'e', 't', 'a', 'r', 'd']) →
        has_forbidden_content (pre ++ k ++ post) = true) ∧
    (∀ text : List Char, (∀ r ∈ regex_patterns, ¬ MatchesSomewhere r text) →
        has_forbidden_content text = false) := by
  have main : ∀ text : List Char, has_forbidden_content text = true ↔
      ∃ r ∈ regex_patterns, MatchesSomewhere r text := by
    intro text
    simp only [has_forbidden_content, List.any_eq_true, search_iff, MatchesSomewhere]
  refine ⟨main, ?_, ?_⟩
  · rintro pre k post (h | h)
    · exact (main _).2 ⟨pattern_n_slur, by simp [regex_patterns],
        pre, k, post, rfl, lang_keyword_n k h⟩
    · exact (main _).2 ⟨pattern_r_slur, by simp [regex_patterns],
        pre, k, post, rfl, lang_keyword_r k h⟩
  · intro text hnone
    cases hval : has_forbidden_content text with
    | false => rfl
    | true =>
      obtain ⟨r, hr, hm⟩ := (main text).1 hval
      exact absurd hm (hnone r hr)

/-- Witness for C1 at concrete inputs: a text containing the first keyword
in mixed casing is flagged. -/
theorem has_forbidden_content_spec_witness :
    has_forbidden_content
      ("so ".toList ++ ['N', 'i', 'G', 'g', 'E', 'r'] ++ "!".toList) = true :=
  has_forbidden_content_spec.2.1 "so ".toList ['N', 'i', 'G', 'g', 'E', 'r'] "!".toList
    (Or.inl (by decide))

/-! ### The action orchestrator (`AutoModerator.handle_violation`)

Every remote platform call in the Python code either returns or raises an
exception.  `discord.py` raises `discord.HTTPException` for rejected API
calls; the `try/except discord.HTTPException` blocks catch exactly those,
so any other exception would propagate.  The embedding keeps both kinds,
so that "never raises" is a provable statement rather than a typing
artifact. -/

/-- A Python exception, as relevant to the moderation pipeline: either a
`discord.HTTPException` (rejected remote call) or any other exception. -/
inductive PyExc : Type where
  | httpError (detail : String)
  | otherError (detail : String)
  deriving DecidableEq

deriving instance DecidableEq for Except

/-- The behavior of one remote platform call: return, or raise. -/
abbrev RemoteResult := Except PyExc Unit

/-- The call either succeeded or failed with a `discord.HTTPException` —
the failure domain of a remote API call in `discord.py`. -/
def isHttpOnly : RemoteResult → Bool
  | .ok _ => true
  | .error (.httpError _) => true
  | .error (.otherError _) => false

/-- Did the remote call return normally? -/
def remoteOk : RemoteResult → Bool
  | .ok _ => true
  | .error _ => false

theorem httpOnly_cases {r : RemoteResult} (h : isHttpOnly r = true) :
    r = .ok () ∨ ∃ d, r = .error (.httpError d) := by
  rcases r with e | u
  · rcases e with d | d
    · exact Or.inr ⟨d, rfl⟩
    · simp [isHttpOnly] at h
  · cases u
    exact Or.inl rfl

/-- The delivery status of the incident reporter (spec-level rendering of
`log_incident`'s control flow). -/
inductive DeliveryStatus : Type where
  | sent
  | suppressedNoSink
  | failed
  deriving DecidableEq

/-- A network call the incident reporter can make. -/
inductive NetCall : Type where
  | fetchChannel
  | sendMessage
  deriving DecidableEq

/-- Environment of `AutoModerator.log_incident`: the configured sink and
the behavior of its two network calls. -/
structure LogEnv : Type where
  /-- `LOG_CHANNEL_ID` (optional environment configuration). -/
  logChannelId : Option Nat
  /-- Behavior of `bot.fetch_channel(LOG_CHANNEL_ID)`. -/
  fetchResult : RemoteResult
  /-- Behavior of `log_channel.send(embed=embed)`. -/
  sendResult : RemoteResult
  deriving DecidableEq

/-- `AutoModerator.log_incident`:

```
if not LOG_CHANNEL_ID: return
try:
    log_channel = await bot.fetch_channel(LOG_CHANNEL_ID)
    ... build embed (pure) ...
    await log_channel.send(embed=embed)
except Exception as e:
    logger.error(...)
```

The result records the delivery status and the network calls attempted.
`except Exception` catches every exception, so the function is total:
nothing propagates to the caller. -/
def log_incident (env : LogEnv) : DeliveryStatus × List NetCall :=
  match env.logChannelId with
  | none => (.suppressedNoSink, [])
  | some _ =>
    match env.fetchResult with
    | .error _ => (.failed, [.fetchChannel])
    | .ok _ =>
      match env.sendResult with
      | .error _ => (.failed, [.fetchChannel, .sendMessage])
      | .ok _ => (.sent, [.fetchChannel, .sendMessage])

/-- The three remedial action kinds of the orchestrator. -/
inductive ActionKind : Type where
  | notify
  | delete
  | timeout
  deriving DecidableEq

/-- Environment of `AutoModerator.handle_violation`: the behavior of the
three remote calls and the permission snapshot of the message. -/
structure ViolationEnv : Type where
  /-- Behavior of `message.reply(...)`. -/
  replyResult : RemoteResult
  /-- Behavior of `message.delete()`. -/
  deleteResult : RemoteResult
  /-- Behavior of `message.author.timeout(...)`. -/
  timeoutResult : RemoteResult
  /-- `message.guild` is not `None`. -/
  hasGuild : Bool
  /-- `message.guild.me.guild_permissions.moderate_members`. -/
  botCanModerate : Bool
  /-- `message.author.guild_permissions.administrator`. -/
  authorIsAdmin : Bool
  /-- Environment for the final `log_incident` call. -/
  logEnv : LogEnv
  deriving DecidableEq

/-- Python dict update `d[k] = v` on an existing key: the value changes in
place, insertion order is preserved. -/
def setKey (d : List (String × Bool)) (k : String) (v : Bool) :
    List (String × Bool) :=
  d.map fun kv => if kv.1 = k then (k, v) else kv

/-- The `actions_taken` dict as initialized at the top of
`handle_violation`. -/
def initialActions : List (String × Bool) :=
  [("message_deleted", false), ("user_notified", false), ("user_timed_out", false)]

/-- The guard of the timeout action:
`message.guild and message.guild.me.guild_permissions.moderate_members and
not message.author.guild_permissions.administrator`. -/
def timeoutCondition (env : ViolationEnv) : Bool :=
  env.hasGuild && env.botCanModerate && !env.authorIsAdmin

/-- The observable outcome of one `handle_violation` run. -/
structure ViolationResult : Type where
  /-- Final state of the `actions_taken` dict. -/
  actions_taken : List (String × Bool)
  /-- The remote actions attempted, in attempt order. -/
  attempts : List ActionKind
  /-- Result of the final `log_incident` call. -/
  report : DeliveryStatus × List NetCall
  deriving DecidableEq

/-- `AutoModerator.handle_violation`, translated block by block.  Each
`try/except discord.HTTPException` becomes a match on the call's
behavior: success updates `actions_taken`, an `httpError` is swallowed
(`logger.warning`), and any other exception propagates (`.error`).  The
timeout call is guarded by `timeoutCondition`; the run ends with an
unconditional `log_incident`. -/
def handle_violation (env : ViolationEnv) : Except PyExc ViolationResult :=
  let step₁ : Except PyExc (List (String × Bool)) :=
    match env.replyResult with
    | .ok _ => .ok (setKey initialActions "user_notified" true)
    | .error (.httpError _) => .ok initialActions
    | .error e => .error e
  match step₁ with
  | .error e => .error e
  | .ok d₁ =>
    let step₂ : Except PyExc (List (String × Bool)) :=
      match env.deleteResult with
      | .ok _ => .ok (setKey d₁ "message_deleted" true)
      | .error (.httpError _) => .ok d₁
      | .error e => .error e
    match step₂ with
    | .error e => .error e
    | .ok d₂ =>
      if timeoutCondition env then
        match env.timeoutResult with
        | .ok _ =>
            .ok ⟨setKey d₂ "user_timed_out" true,
                 [.notify, .delete, .timeout], log_incident env.logEnv⟩
        | .error (.httpError _) =>
            .ok ⟨d₂, [.notify, .delete, .timeout], log_incident env.logEnv⟩
        | .error e => .error e
      else
        .ok ⟨d₂, [.notify, .delete], log_incident env.logEnv⟩

/-- Every remote call of the run fails, if at all, with a
`discord.HTTPException` — the failure domain of claim C2. -/
def HttpOnlyEnv (env : ViolationEnv) : Prop :=
  isHttpOnly env.replyResult = true ∧ isHttpOnly env.deleteResult = true ∧
    isHttpOnly env.timeoutResult = true

/-- Closed form of the final `actions_taken` dict. -/
def expectedActions (env : ViolationEnv) : List (String × Bool) :=
  [("message_deleted", remoteOk env.deleteResult),
   ("user_notified", remoteOk env.replyResult),
   ("user_timed_out", timeoutCondition env && remoteOk env.timeoutResult)]

/-- Closed form of the attempt trace. -/
def expectedAttempts (env : ViolationEnv) : List ActionKind :=
  [.notify, .delete] ++ (if timeoutCondition env then [.timeout] else [])

/-- Full characterization of a `handle_violation` run whose remote-call
failures are all HTTP errors: it returns normally, with the
`actions_taken` dict, attempt trace and incident report in closed form. -/
theorem handle_violation_run (env : ViolationEnv) (h : HttpOnlyEnv env) :
    handle_violation env =
      .ok ⟨expectedActions env, expectedAttempts env, log_incident env.logEnv⟩ := by
  obtain ⟨h₁, h₂, h₃⟩ := h
  rcases httpOnly_cases h₁ with hr | ⟨d₁, hr⟩ <;>
    rcases httpOnly_cases h₂ with hd | ⟨d₂, hd⟩ <;>
    rcases httpOnly_cases h₃ with ht | ⟨d₃, ht⟩ <;>
    rcases Bool.eq_false_or_eq_true (timeoutCondition env) with hc | hc <;>
    simp [handle_violation, expectedActions, expectedAttempts, setKey,
          initialActions, remoteOk, hr, hd, ht, hc]

/-- C2: for every environment and every combination of per-action remote
failures (HTTP errors, the failure domain of `discord.py` remote calls,
including a total outage where all three calls raise), `handle_violation`
returns normally — no exception reaches its caller — and its
`actions_taken` record holds exactly one outcome per defined action kind:
the three keys `message_deleted`, `user_notified`, `user_timed_out`, each
exactly once. -/
theorem handle_violation_total_three_outcomes :
    ∀ env : ViolationEnv, HttpOnlyEnv env →
      ∃ res, handle_violation env = .ok res ∧
        res.actions_taken.map Prod.fst =
          ["message_deleted", "user_notified", "user_timed_out"] := by
  intro env h
  exact ⟨_, handle_violation_run env h, by simp [expectedActions]⟩

/-- Environment of a total remote outage: every remote call, including the
audit-sink calls, raises a `discord.HTTPException`. -/
def envTotalOutage : ViolationEnv :=
  ⟨.error (.httpError "503 Service Unavailable"),
   .error (.httpError "503 Service Unavailable"),
   .error (.httpError "503 Service Unavailable"),
   true, true, false,
   ⟨some 1, .error (.httpError "503 Service Unavailable"),
    .error (.httpError "503 Service Unavailable")⟩⟩

/-- Witness for C2: at a total remote outage, `handle_violation` still
returns three outcomes. -/
theorem handle_violation_total_three_outcomes_witness :
    ∃ res, handle_violation envTotalOutage = .ok res ∧
      res.actions_taken.map Prod.fst =
        ["message_deleted", "user_notified", "user_timed_out"] :=
  handle_violation_total_three_outcomes envTotalOutage ⟨rfl, rfl, rfl⟩

/-- C3: in every run (over the HTTP failure domain of the remote calls),
the actions are attempted in the fixed order Notify, Delete, Timeout, each
at most once; the trace does not depend on which calls succeeded or
failed, so a failed Notify never prevents Delete or Timeout — only the
permission guard can omit the Timeout attempt. -/
theorem handle_violation_attempt_order :
    ∀ env : ViolationEnv, HttpOnlyEnv env →
      ∃ res, handle_violation env = .ok res ∧
        res.attempts = [ActionKind.notify, ActionKind.delete] ++
          (if env.hasGuild && env.botCanModerate && !env.authorIsAdmin
           then [ActionKind.timeout] else []) := by
  intro env h
  exact ⟨_, handle_violation_run env h, by simp [expectedAttempts, timeoutCondition]⟩

/-- Witness for C3: with Notify failing and the timeout guard satisfied,
all three actions are attempted, in order. -/
theorem handle_violation_attempt_order_witness :
    ∃ res, handle_violation
        ⟨.error (.httpError "403 Forbidden"), .ok (), .ok (), true, true, false,
         ⟨none, .ok (), .ok ()⟩⟩ = .ok res ∧
      res.attempts = [ActionKind.notify, ActionKind.delete] ++
        (if true && true && !false then [ActionKind.timeout] else []) :=
  handle_violation_attempt_order
    ⟨.error (.httpError "403 Forbidden"), .ok (), .ok (), true, true, false,
     ⟨none, .ok (), .ok ()⟩⟩ ⟨rfl, rfl, rfl⟩

/-- A run in which the author holds the administrative exemption and every
remote call would succeed. -/
def envAdminExempt : ViolationEnv :=
  ⟨.ok (), .ok (), .ok (), true, true, true, ⟨none, .ok (), .ok ()⟩⟩

/-- A run in which the author is not exempt, the timeout is attempted, and
the timeout call fails with a permission error. -/
def envTimeoutFails : ViolationEnv :=
  ⟨.ok (), .ok (), .error (.httpError "403 Forbidden"), true, true, false,
   ⟨none, .ok (), .ok ()⟩⟩

/-- C4 counterexample: the recorded outcome for the timeout action is NOT
a state distinct from "failed".  An admin-exempt run (timeout never
attempted) and a run whose timeout attempt failed produce identical
`actions_taken` records — both `user_timed_out = False` — so the record
conflates not-attempted with failed. -/
theorem timeout_record_conflates_skipped_and_failed :
    (handle_violation envAdminExempt).map ViolationResult.actions_taken =
      (handle_violation envTimeoutFails).map ViolationResult.actions_taken ∧
    (handle_violation envAdminExempt).map ViolationResult.actions_taken =
      .ok [("message_deleted", true), ("user_notified", true),
           ("user_timed_out", false)] := by
  exact ⟨rfl, rfl⟩

/-- C4 (amended): when the author holds the administrative exemption, the
Timeout action is never attempted — even with a matching text and timeout
capability — and the `actions_taken` record then shows
`user_timed_out = False`; this is the same boolean that records a failed
timeout attempt, not a distinct not-attempted state (the distinctness
claimed by the spec fails, see the counterexample). -/
theorem timeout_never_attempted_for_admin :
    ∀ env : ViolationEnv, HttpOnlyEnv env → env.authorIsAdmin = true →
      ∃ res, handle_violation env = .ok res ∧
        ActionKind.timeout ∉ res.attempts ∧
        res.actions_taken.lookup "user_timed_out" = some false := by
  intro env h hadmin
  refine ⟨_, handle_violation_run env h, ?_, ?_⟩ <;>
    simp [expectedAttempts, expectedActions, timeoutCondition, hadmin,
          List.lookup]

/-- Witness for the amended C4 at a concrete admin-exempt run. -/
theorem timeout_never_attempted_for_admin_witness :
    ∃ res, handle_violation envAdminExempt = .ok res ∧
      ActionKind.timeout ∉ res.attempts ∧
      res.actions_taken.lookup "user_timed_out" = some false :=
  timeout_never_attempted_for_admin envAdminExempt ⟨rfl, rfl, rfl⟩ rfl

/-- C5: with no audit sink configured (`LOG_CHANNEL_ID` unset),
`log_incident` returns the suppressed-no-sink status and makes zero
network calls — neither the channel fetch nor the send is attempted. -/
theorem log_incident_no_sink :
    ∀ env : LogEnv, env.logChannelId = none →
      log_incident env = (DeliveryStatus.suppressedNoSink, []) := by
  intro env h
  simp [log_incident, h]

/-- Witness for C5 at a concrete sinkless environment. -/
theorem log_incident_no_sink_witness :
    log_incident ⟨none, .ok (), .ok ()⟩ = (DeliveryStatus.suppressedNoSink, []) :=
  log_incident_no_sink ⟨none, .ok (), .ok ()⟩ rfl

/-- C6: with a sink configured, if delivery raises — the channel fetch or
the send fails — `log_incident` returns the failed status; the error does
not propagate to the caller, since `log_incident` is a total function of
its environment (the `except Exception` block catches every exception). -/
theorem log_incident_swallows_delivery_failure :
    ∀ (env : LogEnv) (cid : Nat), env.logChannelId = some cid →
      ((∃ e, env.fetchResult = .error e) ∨ (∃ e, env.sendResult = .error e)) →
      (log_incident env).fst = DeliveryStatus.failed := by
  intro env cid hcid hfail
  rcases hf : env.fetchResult with e | u
  · simp [log_incident, hcid, hf]
  · rcases hfail with ⟨e, he⟩ | ⟨e, he⟩
    · rw [hf] at he
      simp at he
    · simp [log_incident, hcid, hf, he]

/-- Witness for C6: a configured sink whose send raises yields `failed`. -/
theorem log_incident_swallows_delivery_failure_witness :
    (log_incident ⟨some 5, .ok (), .error (.httpError "403 Forbidden")⟩).fst =
      DeliveryStatus.failed :=
  log_incident_swallows_delivery_failure
    ⟨some 5, .ok (), .error (.httpError "403 Forbidden")⟩ 5 rfl
    (Or.inr ⟨.httpError "403 Forbidden", rfl⟩)

/-! ### The message handler (`on_message`) -/

/-- Python `message.content.startswith('/')`. -/
def startsWithSlash : List Char → Bool
  | [] => false
  | c :: _ => c == '/'

/-- Environment of one `on_message` dispatch. -/
structure MessageEnv : Type where
  /-- `message.author.bot`. -/
  authorIsBot : Bool
  /-- `message.content`. -/
  content : List Char
  /-- Remote-call behavior for a possible `handle_violation` run. -/
  venv : ViolationEnv
  deriving DecidableEq

/-- Observable outcome of one `on_message` dispatch. -/
structure OnMessageResult : Type where
  /-- Whether `bot.has_forbidden_content` was evaluated. -/
  matcherEvaluated : Bool
  /-- Remedial actions attempted by a `handle_violation` run, if any. -/
  moderationAttempts : List ActionKind
  /-- One entry per `log_incident` call (the incident records produced). -/
  incidentReports : List (DeliveryStatus × List NetCall)
  /-- Whether `bot.process_commands` was reached. -/
  processedCommands : Bool
  deriving DecidableEq

/-- The `on_message` event handler:

```
if message.author.bot: return
if message.content.startswith('/'): return
if bot.has_forbidden_content(message.content):
    await AutoModerator.handle_violation(message)
await bot.process_commands(message)
``` -/
def on_message (env : MessageEnv) : Except PyExc OnMessageResult :=
  if env.authorIsBot then .ok ⟨false, [], [], false⟩
  else if startsWithSlash env.content then .ok ⟨false, [], [], false⟩
  else if has_forbidden_content env.content then
    match handle_violation env.venv with
    | .error e => .error e
    | .ok res => .ok ⟨true, res.attempts, [res.report], true⟩
  else .ok ⟨true, [], [], true⟩

/-- C7: every inbound message from a non-bot author, not starting with
`/`, whose content matches at least one configured pattern, produces
exactly one incident record — exactly one `log_incident` call — no matter
which remedial actions succeeded or failed (over the HTTP failure domain
of the remote calls). -/
theorem one_incident_per_flagged_message :
    ∀ env : MessageEnv, env.authorIsBot = false →
      startsWithSlash env.content = false →
      has_forbidden_content env.content = true →
      HttpOnlyEnv env.venv →
      ∃ res, on_message env = .ok res ∧ res.incidentReports.length = 1 := by
  intro env h₁ h₂ h₃ h₄
  exact ⟨⟨true, expectedAttempts env.venv, [log_incident env.venv.logEnv], true⟩,
    by simp [on_message, h₁, h₂, h₃, handle_violation_run env.venv h₄], rfl⟩

/-- Witness for C7: a flagged message under a total remote outage still
yields exactly one incident record. -/
theorem one_incident_per_flagged_message_witness :
    ∃ res, on_message ⟨false, "NIGGER".toList, envTotalOutage⟩ = .ok res ∧
      res.incidentReports.length = 1 :=
  one_incident_per_flagged_message ⟨false, "NIGGER".toList, envTotalOutage⟩
    rfl rfl (by decide) ⟨rfl, rfl, rfl⟩

/-- C10: a message from a bot account, or one starting with `/`, is
dropped before moderation: the pattern matcher is not evaluated, no
remedial action is attempted and no incident record is produced — even if
the content would match a configured pattern. -/
theorem on_message_skips_bots_and_slash :
    ∀ env : MessageEnv,
      env.authorIsBot = true ∨ startsWithSlash env.content = true →
      on_message env = .ok ⟨false, [], [], false⟩ := by
  intro env h
  rcases h with h | h
  · simp [on_message, h]
  · rcases Bool.eq_false_or_eq_true env.authorIsBot with hb | hb <;>
      simp [on_message, h, hb]

/-- Witness for C10: a bot-authored message whose content matches a
pattern is still ignored. -/
theorem on_message_skips_bots_and_slash_witness :
    on_message ⟨true, "nigger".toList, envTotalOutage⟩ = .ok ⟨false, [], [], false⟩ :=
  on_message_skips_bots_and_slash ⟨true, "nigger".toList, envTotalOutage⟩ (Or.inl rfl)

/-! ### The `/echo` command (`echo_command`) -/

/-- A user-visible interaction response of the echo command (the embeds,
identified by their titles; presentation stripped). -/
inductive EchoResponse : Type where
  /-- The "❌ Permission Denied" embed, sent ephemerally to the invoker. -/
  | permissionDenied
  /-- The "✅ Message Sent" embed, sent ephemerally to the invoker. -/
  | messageSent
  /-- The "❌ Send Failed" embed. -/
  | sendFailed
  deriving DecidableEq

/-- One `CommandLogger.log_command` invocation (name, success flag, error
message). -/
structure LogCall : Type where
  command : String
  success : Bool
  errorMessage : Option String
  deriving DecidableEq

/-- Environment of one `/echo` invocation. -/
structure EchoEnv : Type where
  /-- `interaction.user.guild_permissions.manage_messages`. -/
  userCanManageMessages : Bool
  /-- The `message` parameter. -/
  message : List Char
  /-- Behavior of `target_channel.send(message)`. -/
  channelSendResult : RemoteResult
  deriving DecidableEq

/-- Observable outcome of one `/echo` invocation. -/
structure EchoResult : Type where
  /-- Responses delivered to the invoker, in order. -/
  interactionResponses : List EchoResponse
  /-- Messages delivered to the target channel. -/
  channelSends : List (List Char)
  /-- `CommandLogger.log_command` invocations, in order. -/
  logCalls : List LogCall
  deriving DecidableEq

/-- `echo_command`: permission check first — an unauthorized invoker gets
the denial embed and a failed log entry and the handler returns; otherwise
the success embed is sent to the invoker, then the message to the target
channel (a `discord.HTTPException` from the send is caught and reported
via the Send Failed embed and a failed log entry). -/
def echo_command (env : EchoEnv) : Except PyExc EchoResult :=
  if !env.userCanManageMessages then
    .ok ⟨[.permissionDenied], [],
         [⟨"echo", false, some "Insufficient permissions"⟩]⟩
  else
    match env.channelSendResult with
    | .ok _ => .ok ⟨[.messageSent], [env.message], [⟨"echo", true, none⟩]⟩
    | .error (.httpError d) =>
        .ok ⟨[.messageSent, .sendFailed], [],
             [⟨"echo", false, some ("Failed to send message: " ++ d)⟩]⟩
    | .error e => .error e

/-- C8: every `/echo` invocation by an actor without the manage-messages
capability yields exactly the user-visible denial response, delivers
nothing to the target channel, and records one failed-outcome log entry
with reason "Insufficient permissions" (one `log_command` call with
`success=False`; delivery of that entry to the audit sink is the
reporter's best-effort concern) — never a silent no-op. -/
theorem echo_denied_without_permission :
    ∀ env : EchoEnv, env.userCanManageMessages = false →
      echo_command env = .ok ⟨[.permissionDenied], [],
        [⟨"echo", false, some "Insufficient permissions"⟩]⟩ := by
  intro env h
  simp [echo_command, h]

/-- Witness for C8 at a concrete unauthorized invocation. -/
theorem echo_denied_without_permission_witness :
    echo_command ⟨false, "hello".toList, .ok ()⟩ = .ok ⟨[.permissionDenied], [],
      [⟨"echo", false, some "Insufficient permissions"⟩]⟩ :=
  echo_denied_without_permission ⟨false, "hello".toList, .ok ()⟩ rfl

/-! ### Restaurant session flags (`bot.active_restaurants`)

The interactive `/femboy-hooters` feature keeps one "active session" flag
per user id in the dict `bot.active_restaurants`.  The handlers below are
the transitions the source performs on that dict, per user:

* `commandInvoke ok`: the slash command; refuses if a flag exists,
  otherwise sets the flag (and pops it again if the setup raises);
* `step1GetSeated ok`: `RestaurantViewStep1.next_step`; pops the flag only
  on the error path;
* `step1ViewTimeout`: `RestaurantViewStep1` defines NO `on_timeout`
  override, so the default `discord.ui.View.on_timeout` runs: no cleanup;
* `step2ViewTimeout`: `RestaurantViewStep2.on_timeout` pops the flag;
* `dropdownSelect`: `RestaurantDropdown.callback` pops the flag on both
  the completion and the error path. -/

/-- The set of user ids with an active restaurant session. -/
abbrev SessionMap := List Nat

/-- `bot.active_restaurants.pop(user_id, None)`. -/
def sessionPop (m : SessionMap) (u : Nat) : SessionMap :=
  m.filter fun v => v != u

/-- A lifecycle event of one user's restaurant session. -/
inductive RestEvent : Type where
  | commandInvoke (ok : Bool)
  | step1GetSeated (ok : Bool)
  | step1ViewTimeout
  | step2ViewTimeout
  | dropdownSelect (ok : Bool)
  deriving DecidableEq

/-- The transition each handler in `bot.py` performs on
`bot.active_restaurants` for user `u`. -/
def restaurantStep (m : SessionMap) (u : Nat) : RestEvent → SessionMap
  | .commandInvoke ok =>
      if u ∈ m then m
      else if ok then u :: m
      else sessionPop (u :: m) u
  | .step1GetSeated ok => if ok then m else sessionPop m u
  | .step1ViewTimeout => m
  | .step2ViewTimeout => sessionPop m u
  | .dropdownSelect _ => sessionPop m u

/-- C9 fails on the code: a session whose user never interacts after
`/femboy-hooters` terminates only through `RestaurantViewStep1`'s view
timeout, which performs no cleanup (the class defines no `on_timeout`
override), so the per-user flag leaks — the user can never start another
session.  By contrast the step-2 view timeout does remove the flag,
showing the cleanup was intended on every terminal path. -/
theorem step1_timeout_leaks_session_flag :
    restaurantStep (restaurantStep [] 42 (.commandInvoke true)) 42
        .step1ViewTimeout = [42] ∧
    restaurantStep (restaurantStep [] 42 (.commandInvoke true)) 42
        .step2ViewTimeout = [] := by
  exact ⟨rfl, rfl⟩

end Bot
